import Mathlib

/-!
Shallow embedding of `src/FleetImporter/FleetImporter.py` (the FleetImporter
AutoPkg processor).  JSON values delivered by the Fleet server are modelled by
an inductive `Json` type (as produced by Python's `json.loads`; objects are
association lists with distinct keys, `json.loads` collapses duplicates).
Python's dynamic attribute/type errors (`AttributeError`, `TypeError`) and the
`json.JSONDecodeError` are modelled explicitly, because the source catches only
a fixed tuple of exception classes and lets the others escape.  Network
activity is modelled by a `World` record holding the response each of the three
HTTP endpoints would give, and `mainRun` returns the list of network calls
actually performed together with the run's outcome.

Character-level caveats (noted once here): Python's `str.lower`, `str.strip`,
`int()` and `str.isdigit` also act on non-ASCII code points; the embedding
models the ASCII behaviour, which is what every string in the claims uses.
-/

namespace FleetImporter

/-- JSON values as returned by `json.loads`.  Numbers are modelled as integers
(no claim involves fractional JSON numbers). -/
inductive Json where
  | null : Json
  | bool : Bool → Json
  | num : Int → Json
  | str : String → Json
  | arr : List Json → Json
  | obj : List (String × Json) → Json

/-- Uncaught Python exception classes that the source can raise while
processing a response (these are *not* in any `except` tuple of the source). -/
inductive PyErr where
  | attributeError : PyErr
  | typeError : PyErr
  | jsonDecodeError : PyErr

/-- How a FleetImporter run can fail: a deliberately raised `ProcessorError`
(with its message), or an uncaught Python exception propagating out. -/
inductive RunErr where
  | processorError : String → RunErr
  | uncaught : PyErr → RunErr

/-- Python truthiness (`if x:`) for JSON-decoded values. -/
def truthy : Json → Bool
  | Json.null => false
  | Json.bool b => b
  | Json.num n => n != 0
  | Json.str s => s != ""
  | Json.arr xs => !xs.isEmpty
  | Json.obj fs => !fs.isEmpty

/-- `dict.get(key, default)` on an association list (first match; `json.loads`
never yields duplicate keys). -/
def pyLookupD (fields : List (String × Json)) (key : String) (default : Json) : Json :=
  match fields with
  | [] => default
  | (k, v) :: rest => if k == key then v else pyLookupD rest key default

/-- `x.get(key, default)`: only `dict` has `.get`; every other value raises
`AttributeError`. -/
def dictGet (j : Json) (key : String) (default : Json) : Except PyErr Json :=
  match j with
  | Json.obj fields => Except.ok (pyLookupD fields key default)
  | _ => Except.error PyErr.attributeError

/-- `len(x)`: defined for `str`, `list` and `dict`; `TypeError` otherwise. -/
def jLen (j : Json) : Except PyErr Nat :=
  match j with
  | Json.str s => Except.ok s.length
  | Json.arr xs => Except.ok xs.length
  | Json.obj fs => Except.ok fs.length
  | _ => Except.error PyErr.typeError

/-- `for x in j`: iterating a `list` yields its elements, a `str` its
one-character strings, a `dict` its keys; anything else raises `TypeError`. -/
def jIter (j : Json) : Except PyErr (List Json) :=
  match j with
  | Json.arr xs => Except.ok xs
  | Json.str s => Except.ok (s.toList.map (fun ch => Json.str (String.mk [ch])))
  | Json.obj fs => Except.ok (fs.map (fun kv => Json.str kv.1))
  | _ => Except.error PyErr.typeError

/-- Python `==` between a JSON-decoded value and a `str`: equal only when the
value is a string with the same characters (no coercion, no error). -/
def jEqStr (j : Json) (s : String) : Bool :=
  match j with
  | Json.str t => t == s
  | _ => false

/-- Whitespace stripped by `int()` (and by `str.strip()`), ASCII portion. -/
def isPySpace (c : Char) : Bool :=
  c == ' ' || c == '\t' || c == '\n' || c == '\r' || c == '\x0b' || c == '\x0c'

/-- Strip leading and trailing whitespace from a character list. -/
def stripWs (cs : List Char) : List Char :=
  ((cs.dropWhile isPySpace).reverse.dropWhile isPySpace).reverse

/-- `str.lower()` (ASCII portion), written by structural recursion over the
characters so that concrete runs evaluate inside proofs. -/
def pyLower (s : String) : String := String.mk (s.toList.map Char.toLower)

/-- `str.strip()` (ASCII whitespace), written structurally for the same
reason. -/
def pyStrip (s : String) : String := String.mk (stripWs s.toList)

/-- `x.lower()`: only `str` has `.lower`; `AttributeError` otherwise. -/
def jLower (j : Json) : Except PyErr String :=
  match j with
  | Json.str s => Except.ok (pyLower s)
  | _ => Except.error PyErr.attributeError

/-- Python `a in b` for strings: substring containment (the empty string is a
substring of every string). -/
def pyInStr (a b : String) : Bool := decide (a.toList <:+: b.toList)

/-! ### Python `str.split(sep)` and `int()` -/

/-- `s.split(sep)` for a one-character separator, on the character list.
Always returns at least one chunk (`"".split(".") == [""]`). -/
def splitChar (sep : Char) : List Char → List (List Char)
  | [] => [[]]
  | c :: rest =>
    match splitChar sep rest with
    | [] => [[]]
    | g :: gs => if c == sep then [] :: g :: gs else (c :: g) :: gs

/-- Continuation of Python's integer-literal digit grammar: `('_'? digit)*`
(single underscores allowed only between digits). -/
def digitsCore : List Char → Bool
  | [] => true
  | c :: rest =>
    if c == '_' then
      match rest with
      | [] => false
      | d :: rest2 => d.isDigit && digitsCore rest2
    else c.isDigit && digitsCore rest

/-- Python's integer-literal digit grammar: `digit ('_'? digit)*`. -/
def pyDigits : List Char → Bool
  | [] => false
  | d :: rest => d.isDigit && digitsCore rest

/-- Decimal value of a digit string, ignoring underscore separators. -/
def digitsVal : List Char → Nat → Nat
  | [], acc => acc
  | c :: rest, acc =>
    if c == '_' then digitsVal rest acc
    else digitsVal rest (acc * 10 + (c.toNat - 48))

/-- `int(s)`: strip whitespace, optional sign, then Python's digit grammar;
`none` models the `ValueError` raised on anything else. -/
def pyInt (cs : List Char) : Option Int :=
  match stripWs cs with
  | [] => none
  | c :: r =>
    if c == '+' then (if pyDigits r then some (Int.ofNat (digitsVal r 0)) else none)
    else if c == '-' then (if pyDigits r then some (-(Int.ofNat (digitsVal r 0))) else none)
    else (if pyDigits (c :: r) then some (Int.ofNat (digitsVal (c :: r) 0)) else none)

/-! ### `_is_fleet_minimum_supported` (FleetImporter.py lines 253-278) -/

/-- `FLEET_MINIMUM_VERSION` constant (FleetImporter.py line 28). -/
def FLEET_MINIMUM_VERSION : String := "4.74.0"

/-- Lines 257-260: `fleet_version.split("-")[0].split(".")`, then
`int(parts[0])`, `int(parts[1])`, and `int(parts[2])` when there are more than
two parts else `0`.  `none` models the caught `ValueError`/`IndexError`. -/
def parseProbedTriple (fleet_version : String) : Option (Int × Int × Int) := do
  let version_parts := splitChar '.' ((splitChar '-' fleet_version.toList).headD [])
  let major ← (version_parts[0]?).bind pyInt
  let minor ← (version_parts[1]?).bind pyInt
  let patch ←
    match version_parts[2]? with
    | some p => pyInt p
    | none => pure 0
  return (major, minor, patch)

/-- Lines 263-266: the same parse applied to `FLEET_MINIMUM_VERSION`
(no `-` split in the source for the constant). -/
def parseMinTriple : Option (Int × Int × Int) := do
  let min_parts := splitChar '.' FLEET_MINIMUM_VERSION.toList
  let min_major ← (min_parts[0]?).bind pyInt
  let min_minor ← (min_parts[1]?).bind pyInt
  let min_patch ←
    match min_parts[2]? with
    | some p => pyInt p
    | none => pure 0
  return (min_major, min_minor, min_patch)

/-- `_is_fleet_minimum_supported`: the comparison chain of lines 269-275; any
parse failure (caught `ValueError`/`IndexError`) yields `true` (lines 276-278). -/
def is_fleet_minimum_supported (fleet_version : String) : Bool :=
  (do
    let (major, minor, patch) ← parseProbedTriple fleet_version
    let (min_major, min_minor, min_patch) ← parseMinTriple
    return (if major > min_major then true
            else if major == min_major && minor > min_minor then true
            else if major == min_major && minor == min_minor && patch >= min_patch then true
            else false)).getD true

/-- Spec-side comparison ("compare the probed triple against a fixed minimum
triple lexicographically (major first, then minor, then patch); the server
passes if its triple is ≥ the minimum"), used to state the gate's
correctness. -/
def specLexGe (x y z mx my mz : Int) : Prop :=
  mx < x ∨ (x = mx ∧ my < y) ∨ (x = mx ∧ y = my ∧ mz ≤ z)

instance specLexGeDecidable (x y z mx my mz : Int) : Decidable (specLexGe x y z mx my mz) := by
  unfold specLexGe; infer_instance

/-! ### `_get_fleet_version` (FleetImporter.py lines 428-461) -/

/-- Outcome of the `GET /api/v1/fleet/version` request as the source sees it:
`failure` covers the caught classes (`HTTPError`, `URLError`,
`JSONDecodeError`, `KeyError`); `ok status data` is a response whose body
decoded to the JSON value `data`. -/
inductive ProbeResponse where
  | failure : ProbeResponse
  | ok : Nat → Json → ProbeResponse

/-- `_get_fleet_version`: on a 200 response, `data.get("version", "")`; a
truthy version string is split on `-` and its first chunk returned; in every
caught-failure / non-200 / falsy-version case the constant
`FLEET_MINIMUM_VERSION` is returned.  `data.get` on a non-object and
`.split` on a truthy non-string raise uncaught errors. -/
def get_fleet_version (resp : ProbeResponse) : Except PyErr String :=
  match resp with
  | ProbeResponse.failure => Except.ok FLEET_MINIMUM_VERSION
  | ProbeResponse.ok status data =>
    if status == 200 then do
      let version ← dictGet data "version" (Json.str "")
      if truthy version then
        match version with
        | Json.str s => Except.ok (String.mk ((splitChar '-' s.toList).headD []))
        | _ => Except.error PyErr.attributeError
      else Except.ok FLEET_MINIMUM_VERSION
    else Except.ok FLEET_MINIMUM_VERSION

/-! ### `_check_existing_package` (FleetImporter.py lines 280-426) -/

/-- Outcome of the catalog-search request: `transportError` covers the caught
`HTTPError`/`URLError`, `parseError` the caught `JSONDecodeError`;
`ok status data` is a response whose body decoded to `data`. -/
inductive CheckResponse where
  | transportError : CheckResponse
  | parseError : CheckResponse
  | ok : Nat → Json → CheckResponse

/-- The dict returned on a version hit (lines 391-395 / 406-410):
`{"version": ..., "hash_sha256": ..., "package_name": ...}`. -/
structure MatchInfo where
  version : Json
  hash_sha256 : Json
  package_name : Json

/-- Lines 316-332: the single loop trying, per candidate, first an exact name
match and otherwise a case-insensitive one, breaking on the first candidate
that matches either way. -/
def findMatchPass1 (software_title : String) : List Json → Except PyErr (Option Json)
  | [] => Except.ok none
  | title :: rest => do
    let title_name ← dictGet title "name" (Json.str "")
    if jEqStr title_name software_title then
      Except.ok (some title)
    else do
      let lowered ← jLower title_name
      if lowered == pyLower software_title then
        Except.ok (some title)
      else
        findMatchPass1 software_title rest

/-- Lines 336-349: the fuzzy pass, selecting the first candidate whose
lower-cased name contains, or is contained in, the lower-cased search term. -/
def findMatchFuzzy (software_title : String) : List Json → Except PyErr (Option Json)
  | [] => Except.ok none
  | title :: rest => do
    let title_name ← dictGet title "name" (Json.str "")
    let title_lower ← jLower title_name
    let search_lower := pyLower software_title
    if pyInStr search_lower title_lower || pyInStr title_lower search_lower then
      Except.ok (some title)
    else
      findMatchFuzzy software_title rest

/-- Lines 366-385: scan of the `versions` entries; a dict entry contributes
`ver.get("version", "")`, a string entry contributes itself, every other shape
is skipped (`continue`); the first entry equal (as a string) to the declared
version is returned. -/
def scanVersions (version : String) : List Json → Option Json
  | [] => none
  | e :: rest =>
    match e with
    | Json.obj fields =>
      let ver_string := pyLookupD fields "version" (Json.str "")
      if jEqStr ver_string version then some ver_string else scanVersions version rest
    | Json.str s =>
      if s == version then some (Json.str s) else scanVersions version rest
    | _ => scanVersions version rest

/-- The log line `hash_sha256[:16] + '...' if hash_sha256 else 'none'`
(lines 389, 404): slicing-then-concatenating a truthy non-string raises an
uncaught `TypeError`. -/
def hashPreview (hash : Json) : Except PyErr String :=
  if truthy hash then
    match hash with
    | Json.str s => Except.ok (String.mk (s.toList.take 16) ++ "...")
    | _ => Except.error PyErr.typeError
  else Except.ok "none"

/-- `_check_existing_package`: both caught-failure constructors return `None`
(lines 417-424); a 200 response is processed by the two matching passes, the
version scan, and the `software_package` fall-through; a non-200 status falls
through to the final `return None`. -/
def check_existing_package (software_title version : String) (resp : CheckResponse) :
    Except PyErr (Option MatchInfo) :=
  match resp with
  | CheckResponse.transportError => Except.ok none
  | CheckResponse.parseError => Except.ok none
  | CheckResponse.ok status data =>
    if status == 200 then do
      let software_titles ← dictGet data "software_titles" (Json.arr [])
      let _ ← jLen software_titles
      let titles ← jIter software_titles
      let pass1 ← findMatchPass1 software_title titles
      let matched ←
        match pass1 with
        | some t => Except.ok (some t)
        | none =>
          if truthy software_titles then findMatchFuzzy software_title titles
          else Except.ok none
      match matched with
      | none => Except.ok none
      | some matching_title => do
        let versions ← dictGet matching_title "versions" (Json.arr [])
        let hit ←
          if truthy versions then do
            let _ ← jLen versions
            let entries ← jIter versions
            Except.ok (scanVersions version entries)
          else Except.ok none
        match hit with
        | some ver_string => do
          let hash ← dictGet matching_title "hash_sha256" Json.null
          let _ ← hashPreview hash
          Except.ok (some ⟨ver_string, hash, Json.str software_title⟩)
        | none => do
          let sw_package ← dictGet matching_title "software_package" Json.null
          if truthy sw_package then do
            let pkg_version ← dictGet sw_package "version" (Json.str "")
            if jEqStr pkg_version version then do
              let hash ← dictGet matching_title "hash_sha256" Json.null
              let _ ← hashPreview hash
              let pkg_name ← dictGet sw_package "name" (Json.str software_title)
              Except.ok (some ⟨pkg_version, hash, pkg_name⟩)
            else Except.ok none
          else Except.ok none
    else Except.ok none

/-! ### `_fleet_upload_package` (FleetImporter.py lines 463-549) -/

/-- Outcome of the upload POST: `httpError code body` is a raised
`urllib.error.HTTPError` (how urllib delivers every 4xx/5xx status), and
`success status body parsed` a response `urlopen` returned, with `parsed`
modelling `json.loads(body or "\x7b\x7d")` (`none` when the body is not valid
JSON, which raises an uncaught `JSONDecodeError`; the parse only happens on a
200 status). -/
inductive UploadResponse where
  | httpError : Nat → String → UploadResponse
  | success : Nat → String → Option Json → UploadResponse

/-- Status code carried by the upload response. -/
def uploadStatus : UploadResponse → Nat
  | UploadResponse.httpError code _ => code
  | UploadResponse.success status _ _ => status

/-- Body text carried by the upload response. -/
def uploadBody : UploadResponse → String
  | UploadResponse.httpError _ body => body
  | UploadResponse.success _ body _ => body

/-- The `ProcessorError` message of line 484-486. -/
def labelErrMsg : String :=
  "Only one of labels_include_any or labels_exclude_any may be specified."

/-- The three network requests a run can make, in the order `main` makes
them. -/
inductive NetCall where
  | versionProbe : NetCall
  | existenceCheck : NetCall
  | uploadRequest : NetCall

/-- `_fleet_upload_package`, abstracted over the multipart body (whose exact
bytes no claim touches): the label mutual-exclusion check of lines 483-486
runs before any network activity; afterwards a single POST is made and
interpreted per lines 535-549.  The first component records the network calls
performed. -/
def fleet_upload_package (labels_include_any labels_exclude_any : List String)
    (resp : UploadResponse) : List NetCall × Except RunErr Json :=
  if !labels_include_any.isEmpty && !labels_exclude_any.isEmpty then
    ([], Except.error (RunErr.processorError labelErrMsg))
  else
    ([NetCall.uploadRequest],
      match resp with
      | UploadResponse.httpError code body =>
        if code == 409 then Except.ok (Json.obj [("package_exists", Json.bool true)])
        else Except.error (RunErr.processorError ("Fleet upload failed: " ++ toString code ++ " " ++ body))
      | UploadResponse.success status body parsed =>
        if status != 200 then
          Except.error (RunErr.processorError ("Fleet upload failed: " ++ toString status ++ " " ++ body))
        else
          match parsed with
          | some j => Except.ok j
          | none => Except.error (RunErr.uncaught PyErr.jsonDecodeError))

/-! ### `main` (FleetImporter.py lines 128-233) -/

/-- The processor's input environment after the harness has supplied it
(`team_id` already an integer, scripts and flags present).  `pkg_path_is_file`
models the `pkg_path.is_file()` test of line 131. -/
structure Config where
  pkg_path_is_file : Bool
  software_title : String
  version : String
  fleet_api_base : String
  team_id : Int
  self_service : Bool
  automatic_install : Bool
  labels_include_any : List String
  labels_exclude_any : List String
  install_script : String
  uninstall_script : String
  pre_install_query : String
  post_install_script : String

/-- Everything external a run observes: the three endpoint responses and the
SHA-256 of the local package file (`_calculate_file_sha256`, whose hashing of
the file's bytes is treated as an oracle value of the environment). -/
structure World where
  probe : ProbeResponse
  check : CheckResponse
  upload : UploadResponse
  localHash : String

/-- The three output environment variables; `none` means the key was never
set, `some v` that it was set to the (possibly null) value `v`. -/
structure Outputs where
  fleet_title_id : Option Json
  fleet_installer_id : Option Json
  hash_sha256 : Option Json

/-- `main`: input validation, version probe and gate (lines 153-164),
existence check and early skip (lines 166-187), upload and response handling
(lines 189-233).  Returns the network calls performed, in order, together
with the outcome. -/
def mainRun (cfg : Config) (w : World) : List NetCall × Except RunErr Outputs :=
  if !cfg.pkg_path_is_file then
    ([], Except.error (RunErr.processorError "pkg_path not found"))
  else
    let software_title := pyStrip cfg.software_title
    let version := pyStrip cfg.version
    match get_fleet_version w.probe with
    | Except.error e => ([NetCall.versionProbe], Except.error (RunErr.uncaught e))
    | Except.ok fleet_version =>
      if !is_fleet_minimum_supported fleet_version then
        ([NetCall.versionProbe],
          Except.error (RunErr.processorError
            ("Fleet version " ++ fleet_version ++ " is not supported. This processor requires Fleet v"
              ++ FLEET_MINIMUM_VERSION
              ++ " or higher. Please upgrade your Fleet server to a supported version.")))
      else
        match check_existing_package software_title version w.check with
        | Except.error e =>
          ([NetCall.versionProbe, NetCall.existenceCheck], Except.error (RunErr.uncaught e))
        | Except.ok (some _) =>
          ([NetCall.versionProbe, NetCall.existenceCheck],
            Except.ok { fleet_title_id := some Json.null,
                        fleet_installer_id := some Json.null,
                        hash_sha256 := some (Json.str w.localHash) })
        | Except.ok none =>
          let up := fleet_upload_package cfg.labels_include_any cfg.labels_exclude_any w.upload
          let outcome : Except RunErr Outputs :=
            match up.2 with
            | Except.error e => Except.error e
            | Except.ok upload_info =>
              if !truthy upload_info then
                Except.error (RunErr.processorError "Fleet package upload failed; no data returned")
              else
                match dictGet upload_info "package_exists" Json.null with
                | Except.error e => Except.error (RunErr.uncaught e)
                | Except.ok pe =>
                  if truthy pe then
                    Except.ok { fleet_title_id := some Json.null,
                                fleet_installer_id := some Json.null,
                                hash_sha256 := none }
                  else
                    match dictGet upload_info "software_package" (Json.obj []) with
                    | Except.error e => Except.error (RunErr.uncaught e)
                    | Except.ok software_package =>
                      match dictGet software_package "title_id" Json.null with
                      | Except.error e => Except.error (RunErr.uncaught e)
                      | Except.ok title_id =>
                        match dictGet software_package "installer_id" Json.null with
                        | Except.error e => Except.error (RunErr.uncaught e)
                        | Except.ok installer_id =>
                          match dictGet software_package "hash_sha256" Json.null with
                          | Except.error e => Except.error (RunErr.uncaught e)
                          | Except.ok hash =>
                            Except.ok { fleet_title_id := some title_id,
                                        fleet_installer_id := some installer_id,
                                        hash_sha256 := if truthy hash then some hash else none }
          ([NetCall.versionProbe, NetCall.existenceCheck] ++ up.1, outcome)

/-! ### Characterization predicates (derived from the source, used to state
theorems about the matching and scanning loops) -/

/-- A candidate as the matching loops can fully process it: an object whose
`name` lookup (default `""`) yields a string. -/
def hasStrName (t : Json) : Bool :=
  match t with
  | Json.obj fields =>
    match pyLookupD fields "name" (Json.str "") with
    | Json.str _ => true
    | _ => false
  | _ => false

/-- The name string of a well-shaped candidate (`""` otherwise). -/
def nameStr (t : Json) : String :=
  match t with
  | Json.obj fields =>
    match pyLookupD fields "name" (Json.str "") with
    | Json.str s => s
    | _ => ""
  | _ => ""

/-- The combined predicate the first matching loop applies to each candidate:
exact name equality or case-insensitive equality. -/
def pass1Matches (software_title : String) (t : Json) : Bool :=
  nameStr t == software_title || pyLower (nameStr t) == pyLower software_title

/-- Whether one `versions` entry matches the declared version, per the loop of
lines 366-385: a string entry by direct equality, a record entry through its
`version` field (default `""`), every other shape never. -/
def entryMatches (version : String) (e : Json) : Bool :=
  match e with
  | Json.str s => s == version
  | Json.obj fields => jEqStr (pyLookupD fields "version" (Json.str "")) version
  | _ => false

/-! ## Supporting lemmas -/

theorem splitChar_ne_nil (sep : Char) : (cs : List Char) → splitChar sep cs ≠ []
  | [] => by simp [splitChar]
  | c :: rest => by
    have ih := splitChar_ne_nil sep rest
    cases h : splitChar sep rest with
    | nil => exact absurd h ih
    | cons g gs =>
      simp only [splitChar, h]
      split <;> simp

theorem splitChar_not_mem {sep : Char} : {cs : List Char} → sep ∉ cs → splitChar sep cs = [cs]
  | [], _ => rfl
  | c :: rest, h => by
    have hc : ¬((c == sep) = true) := by
      simp only [beq_iff_eq]
      intro hh
      exact h (hh ▸ List.mem_cons_self c rest)
    have hrest : sep ∉ rest := fun hm => h (List.mem_cons_of_mem _ hm)
    have ih := splitChar_not_mem hrest
    simp [splitChar, ih, hc]

theorem splitChar_append {sep : Char} : {xs : List Char} → sep ∉ xs → (ys : List Char) →
    splitChar sep (xs ++ sep :: ys) = xs :: splitChar sep ys
  | [], _, ys => by
    cases h : splitChar sep ys with
    | nil => exact absurd h (splitChar_ne_nil sep ys)
    | cons g gs => simp [splitChar, h]
  | x :: xs, h, ys => by
    have hx : (x == sep) = false := by
      rw [beq_eq_false_iff_ne]
      intro hh
      exact h (hh ▸ List.mem_cons_self x xs)
    have ih := splitChar_append (fun hm => h (List.mem_cons_of_mem _ hm)) ys
    have hstep : splitChar sep ((x :: xs) ++ sep :: ys) =
        match splitChar sep (xs ++ sep :: ys) with
        | [] => [[]]
        | g :: gs => if x == sep then [] :: g :: gs else (x :: g) :: gs := rfl
    rw [hstep, ih]
    simp [hx]

theorem not_space_of_digit {c : Char} (h : c.isDigit = true) : isPySpace c = false := by
  rcases Bool.eq_false_or_eq_true (isPySpace c) with ht | hf
  · exfalso
    unfold isPySpace at ht
    simp only [Bool.or_eq_true, beq_iff_eq] at ht
    rcases ht with ((((rfl | rfl) | rfl) | rfl) | rfl) | rfl <;> exact absurd h (by decide)
  · exact hf

theorem dropWhile_ws_of_digits {l : List Char} (h : l.all Char.isDigit = true) :
    l.dropWhile isPySpace = l := by
  cases l with
  | nil => rfl
  | cons c rest =>
    simp only [List.all_cons, Bool.and_eq_true] at h
    rw [List.dropWhile_cons, not_space_of_digit h.1]
    simp

theorem stripWs_of_digits {l : List Char} (h : l.all Char.isDigit = true) :
    stripWs l = l := by
  unfold stripWs
  have hrev : l.reverse.all Char.isDigit = true := by
    rw [List.all_reverse]; exact h
  rw [dropWhile_ws_of_digits h, dropWhile_ws_of_digits hrev, List.reverse_reverse]

theorem digitsCore_cons_of_ne {c : Char} {rest : List Char} (hc : (c == '_') = false) :
    digitsCore (c :: rest) = (c.isDigit && digitsCore rest) := by
  cases rest <;> simp [digitsCore, hc]

theorem digitsCore_of_digits {l : List Char} (h : l.all Char.isDigit = true) :
    digitsCore l = true := by
  induction l with
  | nil => rfl
  | cons c rest ih =>
    simp only [List.all_cons, Bool.and_eq_true] at h
    have hc : (c == '_') = false := by
      rw [beq_eq_false_iff_ne]
      rintro rfl
      exact absurd h.1 (by decide)
    rw [digitsCore_cons_of_ne hc, h.1, ih h.2]
    rfl

theorem pyDigits_of_digits {l : List Char} (hne : l ≠ []) (h : l.all Char.isDigit = true) :
    pyDigits l = true := by
  cases l with
  | nil => exact absurd rfl hne
  | cons c rest =>
    simp only [List.all_cons, Bool.and_eq_true] at h
    simp [pyDigits, h.1, digitsCore_of_digits h.2]

theorem pyInt_digits {l : List Char} (hne : l ≠ []) (h : l.all Char.isDigit = true) :
    pyInt l = some (Int.ofNat (digitsVal l 0)) := by
  unfold pyInt
  rw [stripWs_of_digits h]
  cases l with
  | nil => exact absurd rfl hne
  | cons c rest =>
    have hall := h
    simp only [List.all_cons, Bool.and_eq_true] at h
    have h1 : ¬((c == '+') = true) := by
      simp only [beq_iff_eq]; rintro rfl; exact absurd h.1 (by decide)
    have h2 : ¬((c == '-') = true) := by
      simp only [beq_iff_eq]; rintro rfl; exact absurd h.1 (by decide)
    simp [h1, h2, pyDigits_of_digits (List.cons_ne_nil c rest) hall]

theorem not_mem_of_digits {c : Char} (hc : c.isDigit = false) {l : List Char}
    (h : l.all Char.isDigit = true) : c ∉ l := by
  intro hm
  have := List.all_eq_true.mp h c hm
  rw [hc] at this
  exact Bool.false_ne_true this

theorem parseMinTriple_eq : parseMinTriple = some (4, 74, 0) := by rfl

theorem parseProbedTriple_three (a b c suffix : List Char)
    (ha : a ≠ [] ∧ a.all Char.isDigit = true)
    (hb : b ≠ [] ∧ b.all Char.isDigit = true)
    (hc : c ≠ [] ∧ c.all Char.isDigit = true)
    (hs : suffix = [] ∨ ∃ t, suffix = '-' :: t) :
    parseProbedTriple (String.mk (a ++ '.' :: (b ++ '.' :: (c ++ suffix)))) =
      some (Int.ofNat (digitsVal a 0), Int.ofNat (digitsVal b 0), Int.ofNat (digitsVal c 0)) := by
  have hda : ('.' : Char) ∉ a := not_mem_of_digits (by decide) ha.2
  have hdb : ('.' : Char) ∉ b := not_mem_of_digits (by decide) hb.2
  have hdc : ('.' : Char) ∉ c := not_mem_of_digits (by decide) hc.2
  have hnm : ('-' : Char) ∉ (a ++ '.' :: (b ++ '.' :: c)) := by
    intro hm
    simp only [List.mem_append, List.mem_cons] at hm
    rcases hm with hma | hdot | hmb | hdot2 | hmc
    · exact not_mem_of_digits (by decide) ha.2 hma
    · exact absurd hdot (by decide)
    · exact not_mem_of_digits (by decide) hb.2 hmb
    · exact absurd hdot2 (by decide)
    · exact not_mem_of_digits (by decide) hc.2 hmc
  have hhead : (splitChar '-' (String.mk (a ++ '.' :: (b ++ '.' :: (c ++ suffix)))).toList).headD []
      = a ++ '.' :: (b ++ '.' :: c) := by
    have htl : (String.mk (a ++ '.' :: (b ++ '.' :: (c ++ suffix)))).toList
        = a ++ '.' :: (b ++ '.' :: (c ++ suffix)) := rfl
    rw [htl]
    rcases hs with rfl | ⟨t, rfl⟩
    · rw [List.append_nil, splitChar_not_mem hnm]
      rfl
    · have hassoc : a ++ '.' :: (b ++ '.' :: (c ++ '-' :: t))
          = (a ++ '.' :: (b ++ '.' :: c)) ++ '-' :: t := by
        simp [List.append_assoc]
      rw [hassoc, splitChar_append hnm t]
      rfl
  simp only [parseProbedTriple]
  rw [hhead, splitChar_append hda, splitChar_append hdb, splitChar_not_mem hdc]
  simp only [List.getElem?_cons_zero, List.getElem?_cons_succ, Option.some_bind]
  rw [pyInt_digits ha.1 ha.2, pyInt_digits hb.1 hb.2, pyInt_digits hc.1 hc.2]
  rfl

theorem parseProbedTriple_two (a b suffix : List Char)
    (ha : a ≠ [] ∧ a.all Char.isDigit = true)
    (hb : b ≠ [] ∧ b.all Char.isDigit = true)
    (hs : suffix = [] ∨ ∃ t, suffix = '-' :: t) :
    parseProbedTriple (String.mk (a ++ '.' :: (b ++ suffix))) =
      some (Int.ofNat (digitsVal a 0), Int.ofNat (digitsVal b 0), 0) := by
  have hda : ('.' : Char) ∉ a := not_mem_of_digits (by decide) ha.2
  have hdb : ('.' : Char) ∉ b := not_mem_of_digits (by decide) hb.2
  have hnm : ('-' : Char) ∉ (a ++ '.' :: b) := by
    intro hm
    simp only [List.mem_append, List.mem_cons] at hm
    rcases hm with hma | hdot | hmb
    · exact not_mem_of_digits (by decide) ha.2 hma
    · exact absurd hdot (by decide)
    · exact not_mem_of_digits (by decide) hb.2 hmb
  have hhead : (splitChar '-' (String.mk (a ++ '.' :: (b ++ suffix))).toList).headD []
      = a ++ '.' :: b := by
    have htl : (String.mk (a ++ '.' :: (b ++ suffix))).toList
        = a ++ '.' :: (b ++ suffix) := rfl
    rw [htl]
    rcases hs with rfl | ⟨t, rfl⟩
    · rw [List.append_nil, splitChar_not_mem hnm]
      rfl
    · have hassoc : a ++ '.' :: (b ++ '-' :: t) = (a ++ '.' :: b) ++ '-' :: t := by
        simp [List.append_assoc]
      rw [hassoc, splitChar_append hnm t]
      rfl
  simp only [parseProbedTriple]
  rw [hhead, splitChar_append hda, splitChar_not_mem hdb]
  simp only [List.getElem?_cons_zero, List.getElem?_cons_succ, Option.some_bind]
  rw [pyInt_digits ha.1 ha.2, pyInt_digits hb.1 hb.2]
  rfl

theorem gate_of_parse {v : String} {x y z : Int} (h : parseProbedTriple v = some (x, y, z)) :
    is_fleet_minimum_supported v = decide (specLexGe x y z 4 74 0) := by
  simp only [is_fleet_minimum_supported, h, parseMinTriple_eq, Option.bind_eq_bind,
    Option.pure_def, Option.some_bind, Option.getD_some]
  rcases Bool.eq_false_or_eq_true (decide (specLexGe x y z 4 74 0)) with hd | hd <;> rw [hd]
  · have hp : specLexGe x y z 4 74 0 := of_decide_eq_true hd
    unfold specLexGe at hp
    split_ifs with h1 h2 h3
    · rfl
    · rfl
    · rfl
    · exfalso
      simp only [Bool.and_eq_true, beq_iff_eq, decide_eq_true_eq, not_and, not_lt] at h1 h2 h3
      omega
  · have hp : ¬ specLexGe x y z 4 74 0 := of_decide_eq_false hd
    unfold specLexGe at hp
    split_ifs with h1 h2 h3
    · exfalso
      exact hp (Or.inl h1)
    · exfalso
      simp only [Bool.and_eq_true, beq_iff_eq, decide_eq_true_eq] at h2
      exact hp (Or.inr (Or.inl ⟨h2.1, h2.2⟩))
    · exfalso
      simp only [Bool.and_eq_true, beq_iff_eq, decide_eq_true_eq] at h3
      exact hp (Or.inr (Or.inr ⟨h3.1.1, h3.1.2, h3.2⟩))
    · rfl

theorem jEqStr_true {j : Json} {s : String} (h : jEqStr j s = true) : j = Json.str s := by
  cases j with
  | str t =>
    simp only [jEqStr, beq_iff_eq] at h
    rw [h]
  | null => exact absurd h Bool.false_ne_true
  | bool b => exact absurd h Bool.false_ne_true
  | num n => exact absurd h Bool.false_ne_true
  | arr xs => exact absurd h Bool.false_ne_true
  | obj fs => exact absurd h Bool.false_ne_true

theorem scanVersions_eq (version : String) (entries : List Json) :
    scanVersions version entries =
      if entries.any (entryMatches version) then some (Json.str version) else none := by
  induction entries with
  | nil => rfl
  | cons e rest ih =>
    cases e with
    | str s =>
      by_cases hs : (s == version) = true
      · have hv : s = version := by simpa [beq_iff_eq] using hs
        subst hv
        simp [scanVersions, entryMatches, List.any_cons, hs]
      · simp only [Bool.not_eq_true] at hs
        simp [scanVersions, entryMatches, List.any_cons, hs, ih]
    | obj fields =>
      by_cases hs : jEqStr (pyLookupD fields "version" (Json.str "")) version = true
      · have hv := jEqStr_true hs
        simp [scanVersions, entryMatches, List.any_cons, hs, hv, jEqStr]
      · simp only [Bool.not_eq_true] at hs
        simp [scanVersions, entryMatches, List.any_cons, hs, ih]
    | null => simp [scanVersions, entryMatches, List.any_cons, ih]
    | bool b => simp [scanVersions, entryMatches, List.any_cons, ih]
    | num n => simp [scanVersions, entryMatches, List.any_cons, ih]
    | arr xs => simp [scanVersions, entryMatches, List.any_cons, ih]

theorem except_ok_bind {ε α β : Type} (a : α) (f : α → Except ε β) :
    (Except.ok a >>= f : Except ε β) = f a := rfl

theorem except_error_bind {ε α β : Type} (e : ε) (f : α → Except ε β) :
    (Except.error e >>= f : Except ε β) = Except.error e := rfl

theorem except_pure_eq {ε α : Type} (a : α) : (pure a : Except ε α) = Except.ok a := rfl

/-! ## Claims -/

/-- C7: for every version string that cannot be parsed as a numeric
(major, minor[, patch]) triple, the minimum-version gate reports pass
(fail-open) rather than raising or failing. -/
theorem c7_unparsable_fail_open (v : String) (h : parseProbedTriple v = none) :
    is_fleet_minimum_supported v = true := by
  simp [is_fleet_minimum_supported, h]

theorem c7_witness :
    parseProbedTriple "not a version" = none ∧
      is_fleet_minimum_supported "not a version" = true :=
  ⟨rfl, c7_unparsable_fail_open "not a version" rfl⟩

/-- C4: for every version string of the form `X.Y.Z` or `X.Y.Z-suffix`
(and the patch-less forms `X.Y` / `X.Y-suffix`, where patch defaults to 0),
the minimum-version gate strips the `-suffix`, parses the numeric components,
and passes exactly when the parsed triple is lexicographically ≥ the minimum
triple (4, 74, 0). -/
theorem c4_version_gate_lex (a b c suffix : List Char)
    (ha : a ≠ [] ∧ a.all Char.isDigit = true)
    (hb : b ≠ [] ∧ b.all Char.isDigit = true)
    (hc : c ≠ [] ∧ c.all Char.isDigit = true)
    (hs : suffix = [] ∨ ∃ t, suffix = '-' :: t) :
    is_fleet_minimum_supported (String.mk (a ++ '.' :: (b ++ '.' :: (c ++ suffix)))) =
        decide (specLexGe (Int.ofNat (digitsVal a 0)) (Int.ofNat (digitsVal b 0))
          (Int.ofNat (digitsVal c 0)) 4 74 0) ∧
      is_fleet_minimum_supported (String.mk (a ++ '.' :: (b ++ suffix))) =
        decide (specLexGe (Int.ofNat (digitsVal a 0)) (Int.ofNat (digitsVal b 0)) 0 4 74 0) :=
  ⟨gate_of_parse (parseProbedTriple_three a b c suffix ha hb hc hs),
   gate_of_parse (parseProbedTriple_two a b suffix ha hb hs)⟩

theorem c4_witness :
    is_fleet_minimum_supported "4.74.0" = true ∧
    is_fleet_minimum_supported "4.73.9" = false ∧
    is_fleet_minimum_supported "4.74.1" = true ∧
    is_fleet_minimum_supported "5.0.0" = true ∧
    is_fleet_minimum_supported "4.74.0-dev" = true :=
  ⟨((c4_version_gate_lex ['4'] ['7', '4'] ['0'] [] ⟨by decide, by decide⟩ ⟨by decide, by decide⟩
      ⟨by decide, by decide⟩ (Or.inl rfl)).1).trans (by decide),
   ((c4_version_gate_lex ['4'] ['7', '3'] ['9'] [] ⟨by decide, by decide⟩ ⟨by decide, by decide⟩
      ⟨by decide, by decide⟩ (Or.inl rfl)).1).trans (by decide),
   ((c4_version_gate_lex ['4'] ['7', '4'] ['1'] [] ⟨by decide, by decide⟩ ⟨by decide, by decide⟩
      ⟨by decide, by decide⟩ (Or.inl rfl)).1).trans (by decide),
   ((c4_version_gate_lex ['5'] ['0'] ['0'] [] ⟨by decide, by decide⟩ ⟨by decide, by decide⟩
      ⟨by decide, by decide⟩ (Or.inl rfl)).1).trans (by decide),
   ((c4_version_gate_lex ['4'] ['7', '4'] ['0'] ('-' :: ['d', 'e', 'v']) ⟨by decide, by decide⟩
      ⟨by decide, by decide⟩ ⟨by decide, by decide⟩
      (Or.inr ⟨['d', 'e', 'v'], rfl⟩)).1).trans (by decide)⟩

/-- C8 counterexample: a version-probe response whose body is valid JSON but
not an object (here `[1]`) is a malformed response on which the probe does
*not* return the minimum supported version: `data.get` raises an uncaught
`AttributeError` (not in the caught tuple of lines 451-456), and the run
aborts right after the probe. -/
theorem c8_counterexample :
    get_fleet_version (ProbeResponse.ok 200 (Json.arr [Json.num 1]))
        = Except.error PyErr.attributeError ∧
      mainRun ⟨true, "Firefox", "1.0", "https://fleet.example.com", 1, true, false,
          [], [], "", "", "", ""⟩
        ⟨ProbeResponse.ok 200 (Json.arr [Json.num 1]), CheckResponse.transportError,
          UploadResponse.httpError 409 "", "deadbeef"⟩
      = ([NetCall.versionProbe], Except.error (RunErr.uncaught PyErr.attributeError)) :=
  ⟨rfl, rfl⟩

/-- C8 (amended): on every caught probe failure (transport error, JSON-decode
error, key error), on a non-200 status, and on an object response whose
`version` field is missing or falsy, the probe returns exactly the minimum
supported version string, and the gate subsequently passes.  (A response that
decodes to a non-object, or whose `version` field is a truthy non-string,
instead raises an uncaught error that aborts the run.) -/
theorem c8_probe_fallback (r : ProbeResponse)
    (h : r = ProbeResponse.failure ∨
         (∃ s d, r = ProbeResponse.ok s d ∧ s ≠ 200) ∨
         (∃ s fields, r = ProbeResponse.ok s (Json.obj fields) ∧
            truthy (pyLookupD fields "version" (Json.str "")) = false)) :
    get_fleet_version r = Except.ok FLEET_MINIMUM_VERSION ∧
      is_fleet_minimum_supported FLEET_MINIMUM_VERSION = true := by
  constructor
  · rcases h with rfl | ⟨s, d, rfl, hs⟩ | ⟨s, fields, rfl, hf⟩
    · rfl
    · have hne : (s == 200) = false := by rw [beq_eq_false_iff_ne]; exact hs
      simp [get_fleet_version, hne]
    · by_cases h200 : (s == 200) = true
      · simp [get_fleet_version, h200, dictGet, except_ok_bind, hf]
      · simp only [Bool.not_eq_true] at h200
        simp [get_fleet_version, h200]
  · decide

theorem c8_witness :
    get_fleet_version ProbeResponse.failure = Except.ok FLEET_MINIMUM_VERSION ∧
      is_fleet_minimum_supported FLEET_MINIMUM_VERSION = true :=
  c8_probe_fallback ProbeResponse.failure (Or.inl rfl)

/-- C9 counterexample: a catalog response that parses as JSON but whose
`software_titles` entries are not objects (here `["x"]`) makes the existence
check raise an uncaught `AttributeError` (`title.get` on a string, line 318;
`AttributeError` is not in the caught tuple of lines 417-422), terminating the
run — so the existence check is not incapable of terminating the run. -/
theorem c9_counterexample :
    check_existing_package "Firefox" "1.0"
        (CheckResponse.ok 200 (Json.obj [("software_titles", Json.arr [Json.str "x"])]))
      = Except.error PyErr.attributeError ∧
    mainRun ⟨true, "Firefox", "1.0", "https://fleet.example.com", 1, true, false,
        [], [], "", "", "", ""⟩
      ⟨ProbeResponse.failure,
        CheckResponse.ok 200 (Json.obj [("software_titles", Json.arr [Json.str "x"])]),
        UploadResponse.httpError 409 "", "deadbeef"⟩
      = ([NetCall.versionProbe, NetCall.existenceCheck],
         Except.error (RunErr.uncaught PyErr.attributeError)) :=
  ⟨rfl, rfl⟩

/-- C9 (amended): on every caught transport failure or JSON-decode failure of
the existence check, the check reports "not found" (`None`) and the run
continues to the upload step (the upload request is made).  A successfully
decoded response of unexpected shape can instead raise an uncaught error that
terminates the run. -/
theorem c9_advisory_check (cfg : Config) (w : World)
    (hpkg : cfg.pkg_path_is_file = true)
    (hchk : w.check = CheckResponse.transportError ∨ w.check = CheckResponse.parseError)
    (hver : ∃ fv, get_fleet_version w.probe = Except.ok fv ∧
      is_fleet_minimum_supported fv = true)
    (hlab : cfg.labels_include_any = [] ∨ cfg.labels_exclude_any = []) :
    check_existing_package (pyStrip cfg.software_title) (pyStrip cfg.version) w.check = Except.ok none ∧
      NetCall.uploadRequest ∈ (mainRun cfg w).1 := by
  have hres : check_existing_package (pyStrip cfg.software_title) (pyStrip cfg.version) w.check
      = Except.ok none := by
    rcases hchk with h | h <;> rw [h] <;> rfl
  refine ⟨hres, ?_⟩
  obtain ⟨fv, h1, h2⟩ := hver
  have hlabF : (!cfg.labels_include_any.isEmpty && !cfg.labels_exclude_any.isEmpty) = false := by
    rcases hlab with h | h <;> simp [h]
  simp only [mainRun, hpkg, h1, h2, hres, fleet_upload_package, hlabF]
  simp

theorem c9_witness :
    check_existing_package (pyStrip "Firefox") (pyStrip "1.0")
        CheckResponse.transportError = Except.ok none ∧
      NetCall.uploadRequest ∈
        (mainRun ⟨true, "Firefox", "1.0", "https://fleet.example.com", 1, true, false,
            [], [], "", "", "", ""⟩
          ⟨ProbeResponse.failure, CheckResponse.transportError,
            UploadResponse.httpError 409 "", "deadbeef"⟩).1 :=
  c9_advisory_check
    ⟨true, "Firefox", "1.0", "https://fleet.example.com", 1, true, false, [], [], "", "", "", ""⟩
    ⟨ProbeResponse.failure, CheckResponse.transportError, UploadResponse.httpError 409 "", "deadbeef"⟩
    rfl (Or.inl rfl) ⟨FLEET_MINIMUM_VERSION, rfl, by decide⟩ (Or.inl rfl)

/-- C1 counterexample: with both label sets non-empty, the run does terminate
with the configuration `ProcessorError`, but the version-probe and
existence-check network calls have already been made (the trace is
`[versionProbe, existenceCheck]`, not `[]`) — the check sits inside
`_fleet_upload_package` (lines 483-486), which `main` only calls after the
probe and the existence check. -/
theorem c1_counterexample :
    mainRun ⟨true, "Firefox", "1.0", "https://fleet.example.com", 7, true, false,
        ["labelA"], ["labelB"], "", "", "", ""⟩
      ⟨ProbeResponse.failure, CheckResponse.transportError,
        UploadResponse.httpError 409 "", "deadbeef"⟩
      = ([NetCall.versionProbe, NetCall.existenceCheck],
         Except.error (RunErr.processorError labelErrMsg)) ∧
    ([NetCall.versionProbe, NetCall.existenceCheck] : List NetCall) ≠ [] :=
  ⟨rfl, by simp⟩

/-- C1 (amended): for every run that reaches the upload step (version gate
passed, existence check reported "not found") with both `labels_include_any`
and `labels_exclude_any` non-empty, the run terminates with the fatal
configuration error, raised after the version-probe and existence-check
network calls but before the upload request is made. -/
theorem c1_label_error_after_checks (cfg : Config) (w : World)
    (hpkg : cfg.pkg_path_is_file = true)
    (hinc : cfg.labels_include_any ≠ [])
    (hexc : cfg.labels_exclude_any ≠ [])
    (hver : ∃ fv, get_fleet_version w.probe = Except.ok fv ∧
      is_fleet_minimum_supported fv = true)
    (hchk : check_existing_package (pyStrip cfg.software_title) (pyStrip cfg.version) w.check
      = Except.ok none) :
    mainRun cfg w = ([NetCall.versionProbe, NetCall.existenceCheck],
                     Except.error (RunErr.processorError labelErrMsg)) := by
  obtain ⟨fv, h1, h2⟩ := hver
  have i1 : cfg.labels_include_any.isEmpty = false := by
    cases hl : cfg.labels_include_any with
    | nil => exact absurd hl hinc
    | cons x xs => rfl
  have i2 : cfg.labels_exclude_any.isEmpty = false := by
    cases hl : cfg.labels_exclude_any with
    | nil => exact absurd hl hexc
    | cons x xs => rfl
  have hlabT : (!cfg.labels_include_any.isEmpty && !cfg.labels_exclude_any.isEmpty) = true := by
    rw [i1, i2]
    rfl
  simp only [mainRun, hpkg, h1, h2, hchk, fleet_upload_package, hlabT]
  simp

theorem c1_witness :
    mainRun ⟨true, "Notes", "2.0", "https://fleet.example.com", 3, false, true,
        ["x"], ["y"], "", "", "", ""⟩
      ⟨ProbeResponse.failure, CheckResponse.parseError,
        UploadResponse.success 200 "" (some (Json.obj [])), "cafe"⟩
      = ([NetCall.versionProbe, NetCall.existenceCheck],
         Except.error (RunErr.processorError labelErrMsg)) :=
  c1_label_error_after_checks
    ⟨true, "Notes", "2.0", "https://fleet.example.com", 3, false, true,
      ["x"], ["y"], "", "", "", ""⟩
    ⟨ProbeResponse.failure, CheckResponse.parseError,
      UploadResponse.success 200 "" (some (Json.obj [])), "cafe"⟩
    rfl (by simp) (by simp) ⟨FLEET_MINIMUM_VERSION, rfl, by decide⟩ rfl

/-- C5: a run whose upload request receives HTTP 409 (delivered by urllib as
an `HTTPError`) completes successfully: no exception is raised, the title and
installer identifier outputs are set to null, and no hash output is
produced. -/
theorem c5_conflict_graceful (cfg : Config) (w : World) (body : String)
    (hpkg : cfg.pkg_path_is_file = true)
    (hver : ∃ fv, get_fleet_version w.probe = Except.ok fv ∧
      is_fleet_minimum_supported fv = true)
    (hchk : check_existing_package (pyStrip cfg.software_title) (pyStrip cfg.version) w.check
      = Except.ok none)
    (hlab : cfg.labels_include_any = [] ∨ cfg.labels_exclude_any = [])
    (hup : w.upload = UploadResponse.httpError 409 body) :
    mainRun cfg w = ([NetCall.versionProbe, NetCall.existenceCheck, NetCall.uploadRequest],
                     Except.ok { fleet_title_id := some Json.null,
                                 fleet_installer_id := some Json.null,
                                 hash_sha256 := none }) := by
  obtain ⟨fv, h1, h2⟩ := hver
  have hlabF : (!cfg.labels_include_any.isEmpty && !cfg.labels_exclude_any.isEmpty) = false := by
    rcases hlab with h | h <;> simp [h]
  simp only [mainRun, hpkg, h1, h2, hchk, fleet_upload_package, hlabF, hup]
  simp [truthy, dictGet, pyLookupD]

theorem c5_witness :
    mainRun ⟨true, "Firefox", "1.0", "https://fleet.example.com", 1, true, false,
        [], [], "", "", "", ""⟩
      ⟨ProbeResponse.failure, CheckResponse.transportError,
        UploadResponse.httpError 409 "conflict", "deadbeef"⟩
      = ([NetCall.versionProbe, NetCall.existenceCheck, NetCall.uploadRequest],
         Except.ok { fleet_title_id := some Json.null,
                     fleet_installer_id := some Json.null,
                     hash_sha256 := none }) :=
  c5_conflict_graceful
    ⟨true, "Firefox", "1.0", "https://fleet.example.com", 1, true, false, [], [], "", "", "", ""⟩
    ⟨ProbeResponse.failure, CheckResponse.transportError,
      UploadResponse.httpError 409 "conflict", "deadbeef"⟩
    "conflict" rfl ⟨FLEET_MINIMUM_VERSION, rfl, by decide⟩ rfl (Or.inl rfl) rfl

/-- C6: a run whose upload request receives any HTTP status other than 200
and 409 terminates with a fatal `ProcessorError` whose message contains both
the status code and the response body. -/
theorem c6_upload_hard_failure (cfg : Config) (w : World)
    (hpkg : cfg.pkg_path_is_file = true)
    (hver : ∃ fv, get_fleet_version w.probe = Except.ok fv ∧
      is_fleet_minimum_supported fv = true)
    (hchk : check_existing_package (pyStrip cfg.software_title) (pyStrip cfg.version) w.check
      = Except.ok none)
    (hlab : cfg.labels_include_any = [] ∨ cfg.labels_exclude_any = [])
    (h200 : uploadStatus w.upload ≠ 200) (h409 : uploadStatus w.upload ≠ 409) :
    ∃ m, mainRun cfg w
        = ([NetCall.versionProbe, NetCall.existenceCheck, NetCall.uploadRequest],
           Except.error (RunErr.processorError m)) ∧
      pyInStr (toString (uploadStatus w.upload)) m = true ∧
      pyInStr (uploadBody w.upload) m = true := by
  obtain ⟨fv, h1, h2⟩ := hver
  have hlabF : (!cfg.labels_include_any.isEmpty && !cfg.labels_exclude_any.isEmpty) = false := by
    rcases hlab with h | h <;> simp [h]
  cases hup : w.upload with
  | httpError code bd =>
    rw [hup] at h409
    simp only [uploadStatus] at h409
    have hne : (code == 409) = false := by rw [beq_eq_false_iff_ne]; exact h409
    refine ⟨"Fleet upload failed: " ++ toString code ++ " " ++ bd, ?_, ?_, ?_⟩
    · simp only [mainRun, hpkg, h1, h2, hchk, fleet_upload_package, hlabF, hup, hne]
      simp
    · simp only [uploadStatus, pyInStr]
      apply decide_eq_true
      refine ⟨("Fleet upload failed: ").toList, (" " ++ bd).toList, ?_⟩
      simp [String.toList, List.append_assoc]
    · simp only [uploadBody, pyInStr]
      apply decide_eq_true
      refine ⟨("Fleet upload failed: " ++ toString code ++ " ").toList, ([] : List Char), ?_⟩
      simp [String.toList, List.append_assoc]
  | success status bd parsed =>
    rw [hup] at h200
    simp only [uploadStatus] at h200
    have hne : (status == 200) = false := by rw [beq_eq_false_iff_ne]; exact h200
    refine ⟨"Fleet upload failed: " ++ toString status ++ " " ++ bd, ?_, ?_, ?_⟩
    · simp only [mainRun, hpkg, h1, h2, hchk, fleet_upload_package, hlabF, hup]
      simp [bne, hne]
    · simp only [uploadStatus, pyInStr]
      apply decide_eq_true
      refine ⟨("Fleet upload failed: ").toList, (" " ++ bd).toList, ?_⟩
      simp [String.toList, List.append_assoc]
    · simp only [uploadBody, pyInStr]
      apply decide_eq_true
      refine ⟨("Fleet upload failed: " ++ toString status ++ " ").toList, ([] : List Char), ?_⟩
      simp [String.toList, List.append_assoc]

theorem c6_witness :
    ∃ m, mainRun ⟨true, "Firefox", "1.0", "https://fleet.example.com", 1, true, false,
          [], [], "", "", "", ""⟩
        ⟨ProbeResponse.failure, CheckResponse.transportError,
          UploadResponse.httpError 500 "server error", "deadbeef"⟩
        = ([NetCall.versionProbe, NetCall.existenceCheck, NetCall.uploadRequest],
           Except.error (RunErr.processorError m)) ∧
      pyInStr "500" m = true ∧
      pyInStr "server error" m = true :=
  c6_upload_hard_failure
    ⟨true, "Firefox", "1.0", "https://fleet.example.com", 1, true, false, [], [], "", "", "", ""⟩
    ⟨ProbeResponse.failure, CheckResponse.transportError,
      UploadResponse.httpError 500 "server error", "deadbeef"⟩
    rfl ⟨FLEET_MINIMUM_VERSION, rfl, by decide⟩ rfl (Or.inl rfl) (by decide) (by decide)

/-- C2 counterexample: declared `"Firefox"` against candidates
`[{"name": "firefox", hash AAA}, {"name": "Firefox", hash BBB}]`, both listing
version `"1.0"`.  The claim says the exact-match candidate (hash `"BBB"`) is
selected; the code's single combined loop (lines 317-332) instead breaks on
the earlier case-insensitive match, returning the title-level hash `"AAA"` of
the `"firefox"` candidate. -/
theorem c2_counterexample :
    check_existing_package "Firefox" "1.0" (CheckResponse.ok 200 (Json.obj
        [("software_titles", Json.arr
          [Json.obj [("name", Json.str "firefox"), ("versions", Json.arr [Json.str "1.0"]),
                     ("hash_sha256", Json.str "AAA")],
           Json.obj [("name", Json.str "Firefox"), ("versions", Json.arr [Json.str "1.0"]),
                     ("hash_sha256", Json.str "BBB")]])]))
      = Except.ok (some ⟨Json.str "1.0", Json.str "AAA", Json.str "Firefox"⟩) ∧
    ("AAA" : String) ≠ "BBB" :=
  ⟨rfl, by decide⟩

/-- C2 (amended): exact and case-insensitive name matching are performed in a
single pass over the candidates, exact tried first on each candidate: the
selected candidate is the *first* one matching either exactly or
case-insensitively; an earlier candidate matching only case-insensitively
therefore wins over a later exact match.  (Fuzzy matching still runs as a
separate later pass only when this pass finds nothing.) -/
theorem c2_single_pass_first_match (software_title : String) (titles : List Json)
    (h : titles.all hasStrName = true) :
    findMatchPass1 software_title titles
      = Except.ok (titles.find? (pass1Matches software_title)) := by
  induction titles with
  | nil => rfl
  | cons t rest ih =>
    simp only [List.all_cons, Bool.and_eq_true] at h
    obtain ⟨h1, h2⟩ := h
    cases t with
    | obj fields =>
      cases hn : pyLookupD fields "name" (Json.str "") with
      | str s =>
        have hns : nameStr (Json.obj fields) = s := by simp [nameStr, hn]
        by_cases he : s = software_title
        · have hp : pass1Matches software_title (Json.obj fields) = true := by
            simp [pass1Matches, hns, he]
          simp [findMatchPass1, dictGet, hn, except_ok_bind, jEqStr, he, List.find?_cons, hp]
        · by_cases hci : pyLower s = pyLower software_title
          · have hp : pass1Matches software_title (Json.obj fields) = true := by
              simp [pass1Matches, hns, hci]
            simp [findMatchPass1, dictGet, hn, except_ok_bind, jEqStr, he, jLower, hci,
              List.find?_cons, hp]
          · have hp : pass1Matches software_title (Json.obj fields) = false := by
              simp [pass1Matches, hns, he, hci]
            simp [findMatchPass1, dictGet, hn, except_ok_bind, jEqStr, he, jLower, hci,
              List.find?_cons, hp, ih h2]
      | null => simp [hasStrName, hn] at h1
      | bool b => simp [hasStrName, hn] at h1
      | num n => simp [hasStrName, hn] at h1
      | arr xs => simp [hasStrName, hn] at h1
      | obj fs => simp [hasStrName, hn] at h1
    | null => simp [hasStrName] at h1
    | bool b => simp [hasStrName] at h1
    | num n => simp [hasStrName] at h1
    | str s => simp [hasStrName] at h1
    | arr xs => simp [hasStrName] at h1

theorem c2_witness :
    findMatchPass1 "Firefox"
        [Json.obj [("name", Json.str "firefox")], Json.obj [("name", Json.str "Firefox")]]
      = Except.ok
          (([Json.obj [("name", Json.str "firefox")],
             Json.obj [("name", Json.str "Firefox")]]).find? (pass1Matches "Firefox")) :=
  c2_single_pass_first_match "Firefox"
    [Json.obj [("name", Json.str "firefox")], Json.obj [("name", Json.str "Firefox")]]
    (by decide)

/-- C3: for a matched title, the version scan finds a match exactly when some
`versions` entry — a bare string, or a record through its `version` field —
equals the declared version; entries of any other shape are skipped without
error (the result is still `Except.ok`); and when no entry matches, the check
falls through to comparing the declared version against
`software_package.version`. -/
theorem c3_version_scan_and_fallthrough (version spkgVer : String) (entries : List Json) :
    check_existing_package "T" version (CheckResponse.ok 200 (Json.obj
        [("software_titles", Json.arr
          [Json.obj [("name", Json.str "T"), ("versions", Json.arr entries),
                     ("software_package", Json.obj [("version", Json.str spkgVer)])]])]))
      = Except.ok (
          if entries.any (entryMatches version) then
            some ⟨Json.str version, Json.null, Json.str "T"⟩
          else if (spkgVer == version) = true then
            some ⟨Json.str spkgVer, Json.null, Json.str "T"⟩
          else none) := by
  cases entries with
  | nil =>
    by_cases hsp : (spkgVer == version) = true
    · simp [check_existing_package, dictGet, pyLookupD, jLen, jIter, findMatchPass1, jEqStr,
        truthy, hashPreview, except_ok_bind, except_pure_eq, hsp]
    · simp only [Bool.not_eq_true] at hsp
      simp [check_existing_package, dictGet, pyLookupD, jLen, jIter, findMatchPass1, jEqStr,
        truthy, hashPreview, except_ok_bind, except_pure_eq, hsp]
  | cons e es =>
    have hscan := scanVersions_eq version (e :: es)
    by_cases hany : ((e :: es).any (entryMatches version)) = true
    · rw [hany] at hscan
      simp [check_existing_package, dictGet, pyLookupD, jLen, jIter, findMatchPass1, jEqStr,
        truthy, hashPreview, except_ok_bind, except_pure_eq, hscan, hany]
    · simp only [Bool.not_eq_true] at hany
      rw [hany] at hscan
      by_cases hsp : (spkgVer == version) = true
      · simp [check_existing_package, dictGet, pyLookupD, jLen, jIter, findMatchPass1, jEqStr,
          truthy, hashPreview, except_ok_bind, except_pure_eq, hscan, hany, hsp]
      · simp only [Bool.not_eq_true] at hsp
        simp [check_existing_package, dictGet, pyLookupD, jLen, jIter, findMatchPass1, jEqStr,
          truthy, hashPreview, except_ok_bind, except_pure_eq, hscan, hany, hsp]

/-- C10 counterexample: declared `"Firefox"` against candidates
`[{"name": "Mozilla Firefox Suite", versions ["1.0"], hash AAA}, {}]` — no
exact or case-insensitive match exists and the second candidate's name is
missing, yet the fuzzy pass selects the *first* candidate (whose lower-cased
name contains `"firefox"`), not the empty-name one: the check returns the
first candidate's hash `"AAA"` (the empty-name candidate, having no versions,
would have produced `none`). -/
theorem c10_counterexample :
    findMatchPass1 "Firefox"
        [Json.obj [("name", Json.str "Mozilla Firefox Suite"),
                   ("versions", Json.arr [Json.str "1.0"]),
                   ("hash_sha256", Json.str "AAA")],
         Json.obj []]
      = Except.ok none ∧
    findMatchFuzzy "Firefox"
        [Json.obj [("name", Json.str "Mozilla Firefox Suite"),
                   ("versions", Json.arr [Json.str "1.0"]),
                   ("hash_sha256", Json.str "AAA")],
         Json.obj []]
      = Except.ok (some (Json.obj [("name", Json.str "Mozilla Firefox Suite"),
                                   ("versions", Json.arr [Json.str "1.0"]),
                                   ("hash_sha256", Json.str "AAA")])) ∧
    check_existing_package "Firefox" "1.0"
        (CheckResponse.ok 200 (Json.obj [("software_titles", Json.arr
          [Json.obj [("name", Json.str "Mozilla Firefox Suite"),
                     ("versions", Json.arr [Json.str "1.0"]),
                     ("hash_sha256", Json.str "AAA")],
           Json.obj []])]))
      = Except.ok (some ⟨Json.str "1.0", Json.str "AAA", Json.str "Firefox"⟩) :=
  ⟨rfl, rfl, rfl⟩

/-- C10 (amended): a candidate whose `name` field is missing or is the empty
string always satisfies the fuzzy substring test (the empty string is a
substring of every declared title), so whenever no earlier candidate satisfies
the fuzzy test, that candidate is selected — which can cause "exists" to be
reported for an unrelated title. -/
theorem c10_empty_name_fuzzy (software_title : String) (pre post : List Json)
    (fields : List (String × Json))
    (hname : pyLookupD fields "name" (Json.str "") = Json.str "")
    (hpre : findMatchFuzzy software_title pre = Except.ok none) :
    findMatchFuzzy software_title (pre ++ Json.obj fields :: post)
      = Except.ok (some (Json.obj fields)) := by
  induction pre with
  | nil =>
    have hsub : pyInStr (pyLower "") (pyLower software_title) = true := by
      apply decide_eq_true
      exact List.nil_infix
    simp [findMatchFuzzy, dictGet, hname, jLower, except_ok_bind, hsub]
  | cons p ps ih =>
    rw [List.cons_append]
    cases hdg : dictGet p "name" (Json.str "") with
    | error e =>
      exfalso
      simp [findMatchFuzzy, hdg, except_error_bind] at hpre
    | ok nm =>
      cases hlw : jLower nm with
      | error e =>
        exfalso
        simp [findMatchFuzzy, hdg, hlw, except_ok_bind, except_error_bind] at hpre
      | ok lw =>
        by_cases hcond :
            (pyInStr (pyLower software_title) lw = true ∨
              pyInStr lw (pyLower software_title) = true)
        · exfalso
          simp [findMatchFuzzy, hdg, hlw, hcond, except_ok_bind] at hpre
        · have hrec : findMatchFuzzy software_title ps = Except.ok none := by
            simpa [findMatchFuzzy, hdg, hlw, hcond, except_ok_bind] using hpre
          simp [findMatchFuzzy, hdg, hlw, hcond, except_ok_bind, ih hrec]

theorem c10_witness :
    findMatchFuzzy "Firefox" ([Json.obj [("name", Json.str "zzz")]] ++ Json.obj [] :: [])
      = Except.ok (some (Json.obj [])) :=
  c10_empty_name_fuzzy "Firefox" [Json.obj [("name", Json.str "zzz")]] [] [] rfl rfl

end FleetImporter
